import Mathlib

/-!
Shallow embedding of the register-decoding core of the modbus-mqtt adapter.

The Python sources embedded here are:
  * conversions.py — `convert_timestamp`, `convert_real`, `StructEntry`,
    `STRUCT_CONTENTS`, `convert_single_struct`, `to_sensor_list`,
    `merge_energy_values`;
  * config.py — `DATA_SIZE`, `DATA_LAYOUT`;
  * main.py — the per-cycle module slicing loop.

Modbus input registers are unsigned 16-bit quantities, so raw buffers are
modelled as `List Nat`.  Fallible Python operations (list indexing, dict
lookup, `bytes.fromhex`, `struct.unpack`, `raise`) are modelled in the
`Except String` monad; Python list slicing (which silently truncates) is
modelled by `pySlice`.
-/

namespace Modbus

/-- Python `l[i]` for a non-negative index: raises `IndexError` when `i` is
out of range. -/
def pyGet (l : List α) (i : Nat) : Except String α :=
  match l.get? i with
  | some x => Except.ok x
  | none => Except.error "IndexError: list index out of range"

/-- Python `l[a:b]` for `0 ≤ a ≤ b`: the slice is truncated at the end of the
list rather than raising. -/
def pySlice (l : List α) (a b : Nat) : List α :=
  (l.drop a).take (b - a)

/-- Python `range(a, b, step)` for a non-negative step.  (The sources only
ever call it with `step = wordsize > 0`; `step = 0` raises in Python and is
mapped to `[]` here, unreachable in this development.) -/
def pyRange (a b step : Nat) : List Nat :=
  if step = 0 then []
  else (List.range ((b - a + step - 1) / step)).map (fun k => a + k * step)

/-- Python `d[k] = v` on an insertion-ordered dict represented as an
association list: an existing key keeps its position and gets the new value,
a new key is appended at the end. -/
def dictSet : List (String × α) → String → α → List (String × α)
  | [], k, v => [(k, v)]
  | (k', v') :: t, k, v =>
      if k' = k then (k, v) :: t else (k', v') :: dictSet t k v

/-- Python `d[k]` on an association-list dict: raises `KeyError` when the key
is absent. -/
def dictGet (d : List (String × α)) (k : String) : Except String α :=
  match d.find? (fun p => p.1 == k) with
  | some p => Except.ok p.2
  | none => Except.error ("KeyError: " ++ k)

/-- In-place update `l[i] = f l[i]` of a Python list.  (Out-of-range indices
would raise in Python; every use in this development is statically in
range.) -/
def listModify : List α → Nat → (α → α) → List α
  | [], _, _ => []
  | a :: t, 0, f => f a :: t
  | a :: t, n + 1, f => a :: listModify t n f

/-- A decoded Python value as produced by the conversion functions: an `int`
(`convert_timestamp`, the `busIndex` converter), a `float` carrying the
IEEE-754 binary32 bit pattern produced by `struct.unpack(">f", ...)`
(`convert_real`), or a `list` of converted values (`repeatCount > 1`
fields). -/
inductive Value where
  | vint : Nat → Value
  | vfloat : Nat → Value
  | vlist : List Value → Value

/-- conversions.py `convert_timestamp`: combines two words, the second word
being the more significant half. -/
def convert_timestamp (responseData : List Nat) : Except String Value := do
  let hi ← pyGet responseData 1
  let lo ← pyGet responseData 0
  pure (Value.vint (hi <<< 16 ||| lo))

/-- The digits of Python `hex(n)[2:]`: lowercase hexadecimal, most
significant digit first, no leading zeros, `"0"` for zero.  Structural fuel
recursion so that concrete inputs evaluate by `rfl`/`decide`. -/
def hexDigitsAux : Nat → Nat → List Char
  | 0, _ => []
  | fuel + 1, n =>
      if n < 16 then [Nat.digitChar n]
      else hexDigitsAux fuel (n / 16) ++ [Nat.digitChar (n % 16)]

/-- Python `hex(n)[2:]` for a non-negative `n`, as a list of characters. -/
def hexDigits (n : Nat) : List Char :=
  hexDigitsAux (n + 1) n

/-- conversions.py `convert_real`: assembles two words (second word = high
half) into a 32-bit quantity, renders it in hexadecimal, left-pads the hex
string to 8 digits, and reinterprets the resulting 4 bytes as a big-endian
IEEE-754 single-precision float.  `bytes.fromhex` raises on an odd number of
digits, and `struct.unpack(">f", _)` raises unless it receives exactly 4
bytes.  Unpacking the 8-hex-digit big-endian rendering of `n` yields the
float whose bit pattern is `n`, which is what `Value.vfloat` carries. -/
def convert_real (responseData : List Nat) : Except String Value := do
  let hi ← pyGet responseData 1
  let lo ← pyGet responseData 0
  let n := hi <<< 16 ||| lo
  let hexStr := hexDigits n
  let hexStr := if hexStr.length < 8
    then List.replicate (8 - hexStr.length) '0' ++ hexStr
    else hexStr
  if hexStr.length % 2 = 1 then
    Except.error "ValueError: non-hexadecimal number found in fromhex"
  else if hexStr.length ≠ 8 then
    Except.error "struct.error: unpack requires a buffer of 4 bytes"
  else
    pure (Value.vfloat n)

/-- conversions.py `StructEntry`: one entry of the memory layout of the
Modbus response. -/
structure StructEntry where
  name : String
  position : Nat
  wordsize : Nat
  count : Nat
  converter : List Nat → Except String Value

/-- conversions.py `STRUCT_SIZE`. -/
def STRUCT_SIZE : Nat := 24

/-- conversions.py `STRUCT_CONTENTS` (the `busIndex` converter is the
source's `lambda x: x[0]`). -/
def STRUCT_CONTENTS : List StructEntry :=
  [⟨"timestamp", 0, 2, 1, convert_timestamp⟩,
   ⟨"busIndex", 2, 1, 1, fun x => do pure (Value.vint (← pyGet x 0))⟩,
   ⟨"voltage", 4, 2, 3, convert_real⟩,
   ⟨"current", 10, 2, 3, convert_real⟩,
   ⟨"power", 16, 2, 3, convert_real⟩,
   ⟨"energy", 22, 2, 1, convert_real⟩]

/-- conversions.py `convert_single_struct`: decodes one module's registers
into an insertion-ordered dict according to `STRUCT_CONTENTS`.  The `result`
dict threaded through the loop is the fold accumulator; `list(map(...))`
forces the slice conversions in order, raising at the first failure, which
is `List.mapM` in the `Except` monad. -/
def convert_single_struct (registers : List Nat) :
    Except String (List (String × Value)) :=
  STRUCT_CONTENTS.foldlM (fun result entry => do
    let value ←
      if entry.count = 1 then
        entry.converter (pySlice registers entry.position
          (entry.position + entry.wordsize))
      else do
        let vals ← (pyRange entry.position
            (entry.position + entry.wordsize * entry.count)
            entry.wordsize).mapM
          (fun i => entry.converter (pySlice registers i (i + entry.wordsize)))
        pure (Value.vlist vals)
    pure (dictSet result entry.name value)) []

/-- One entry of a `SensorList` (conversions.py): a dict with a `sensorId`
string and a list of `energyvalues` dicts. -/
structure SensorEntry where
  sensorId : String
  energyvalues : List (List (String × Value))

/-- Rendering of a scalar `Value` as Python string interpolation would show
it (`str` of an `int`; floats and lists are abbreviated, they never reach the
`f"pm{...}"` interpolation in the source). -/
def scalarRepr : Value → String
  | Value.vint n => toString n
  | Value.vfloat b => "float32:" ++ toString b
  | Value.vlist l => "list:" ++ toString l.length

/-- Rendering of a `Value` for the `TypeError` message of `to_sensor_list`,
showing the offending value itself. -/
def valueRepr : Value → String
  | Value.vlist l =>
      "[" ++ String.intercalate ", " (l.map scalarRepr) ++ "]"
  | v => scalarRepr v

/-- The message of the `TypeError` raised by `to_sensor_list`, reporting the
offending key and value (the source's f-string). -/
def typeErrorMsg (key : String) (v : Value) : String :=
  "TypeError: Unsupported data type for key " ++ key ++
    " in the converted data: " ++ valueRepr v

/-- `result[index]["energyvalues"][0][key] = v` from `to_sensor_list`. -/
def updateSensor (result : List SensorEntry) (index : Nat) (key : String)
    (v : Value) : List SensorEntry :=
  listModify result index (fun e =>
    SensorEntry.mk e.sensorId
      (listModify e.energyvalues 0 (fun d => dictSet d key v)))

/-- The body of the per-key loop of conversions.py `to_sensor_list`:
`timestamp` and `busIndex` are skipped; a `float` value goes to the module
entry (`result[3]`); a list of exactly 3 values goes to the three phase
entries in order; anything else raises a `TypeError` naming the key and the
value. -/
def sensor_assign (result : List SensorEntry) (key : String) (value : Value) :
    Except String (List SensorEntry) :=
  if key = "timestamp" ∨ key = "busIndex" then Except.ok result
  else
    match value with
    | Value.vfloat b => Except.ok (updateSensor result 3 key (Value.vfloat b))
    | Value.vlist l =>
        if l.length = 3 then
          Except.ok (l.enum.foldl
            (fun res p => updateSensor res p.1 key p.2) result)
        else Except.error (typeErrorMsg key (Value.vlist l))
    | v => Except.error (typeErrorMsg key v)

/-- conversions.py `to_sensor_list`: decodes the registers, builds the four
sensor entries `pm{busIndex}-phase1/2/3/module` each holding one
`energyvalues` dict with the decoded timestamp, and distributes the remaining
decoded fields over them.  (The source's four `assert`s on the constructed
`sensorId`s hold by construction.) -/
def to_sensor_list (registers : List Nat) :
    Except String (List SensorEntry) := do
  let convResult ← convert_single_struct registers
  let busVal ← dictGet convResult "busIndex"
  let tsVal ← dictGet convResult "timestamp"
  let sensorIds := ["phase1", "phase2", "phase3", "module"].map
    (fun suffix => "pm" ++ scalarRepr busVal ++ "-" ++ suffix)
  let result := sensorIds.map
    (fun sid => SensorEntry.mk sid [[("timestamp", tsVal)]])
  convResult.foldlM (fun res p => sensor_assign res p.1 p.2) result

/-- The helper of `merge_energy_values`: appends one energy-values dict to
the first entry of the list whose `sensorId` matches (the Python code
mutates the dict object found by `next(...)`, which lives in the target
list). -/
def appendEnergy : List SensorEntry → String → List (String × Value) →
    List SensorEntry
  | [], _, _ => []
  | e :: t, sid, ev =>
      if e.sensorId = sid then
        { e with energyvalues := e.energyvalues ++ [ev] } :: t
      else e :: appendEnergy t sid ev

/-- conversions.py `merge_energy_values`: folds the source entries into the
target list.  `next((s for s in target if ...), None)` is `List.find?` over
the current (possibly already extended) target; an unmatched source entry is
appended whole, a matched one contributes `sourceEntry["energyvalues"][0]`
(raising `IndexError` when that list is empty).  A found entry is a dict
containing at least `sensorId`, hence never falsy, so `if not targetEntry`
is exactly the `None` test.  `mergeStep` is the loop body, one source entry
folded into the current target list. -/
def mergeStep (tgt : List SensorEntry) (sourceEntry : SensorEntry) :
    Except String (List SensorEntry) :=
  match tgt.find? (fun s => s.sensorId == sourceEntry.sensorId) with
  | none => Except.ok (tgt ++ [sourceEntry])
  | some _ => do
      let ev ← pyGet sourceEntry.energyvalues 0
      pure (appendEnergy tgt sourceEntry.sensorId ev)

def merge_energy_values (target source : List SensorEntry) :
    Except String (List SensorEntry) :=
  source.foldlM mergeStep target

/-- data_entry.py `DataEntry` (the config.py layout's entry type; same shape
as `StructEntry`). -/
structure DataEntry where
  name : String
  position : Nat
  wordsize : Nat
  count : Nat
  converter : List Nat → Except String Value

/-- Modelled from the spec: config.py imports `convert_word` from the
conversions module, but no definition of it appears in the sources.  Per
spec §4.1 the Uint16 conversion takes exactly 1 word and returns its value
interpreted as unsigned, and a mismatched slice length "must fail loudly
(raise/return an error) rather than silently truncate or pad". -/
def convert_word : List Nat → Except String Value
  | [w] => Except.ok (Value.vint w)
  | _ => Except.error "conversion error: Uint16 expects exactly one word"

/-- config.py `DATA_SIZE`: the declared total word size of one module. -/
def DATA_SIZE : Nat := 24

/-- config.py `DATA_LAYOUT`. -/
def DATA_LAYOUT : List DataEntry :=
  [⟨"timestamp", 0, 2, 1, convert_timestamp⟩,
   ⟨"busIndex", 2, 1, 1, convert_word⟩,
   ⟨"voltage", 4, 2, 3, convert_real⟩,
   ⟨"current", 10, 2, 3, convert_real⟩,
   ⟨"power", 16, 2, 3, convert_real⟩,
   ⟨"energy", 22, 2, 1, convert_real⟩]

/-- Modelled from the spec: main.py imports `convert_single_module` from the
conversions module, but no definition of it appears in the sources.  Per
spec §4.2 the decoding engine decodes one raw module buffer with a layout:
it "fails if the raw buffer is shorter than the layout's declared total word
size, or if any field's span exceeds the buffer bounds", and otherwise, for
each field descriptor in layout order, stores a scalar (`repeatCount = 1`)
or the ordered list of `repeatCount` values (`repeatCount > 1`), each value
converted from its own `wordWidth`-wide sub-slice, successive sub-slices
starting `wordWidth` words apart from `offset`. -/
def convert_single_module (registers : List Nat) (layout : List DataEntry) :
    Except String (List (String × Value)) :=
  if registers.length < DATA_SIZE then
    Except.error "decode error: raw buffer shorter than the declared total word size"
  else
    layout.foldlM (fun result entry => do
      if registers.length < entry.position + entry.wordsize * entry.count then
        Except.error ("decode error: field " ++ entry.name ++
          " exceeds the buffer bounds")
      else
        let value ←
          if entry.count = 1 then
            entry.converter (pySlice registers entry.position
              (entry.position + entry.wordsize))
          else do
            let vals ← (pyRange entry.position
                (entry.position + entry.wordsize * entry.count)
                entry.wordsize).mapM
              (fun i => entry.converter (pySlice registers i (i + entry.wordsize)))
            pure (Value.vlist vals)
        pure (dictSet result entry.name value)) []

/-- main.py, the per-cycle module slicing loop:

    for i in range(0, args.modules):
        moduleSlice = response.registers[i * DATA_SIZE : (i + 1) * DATA_SIZE]
        result = convert_single_module(moduleSlice, DATA_LAYOUT)
        result["index"] = i
        dataset["results"].append(result)

The `dataset["results"]` list built over the loop is the returned list; the
`"index"` key is fresh in each decode result, so `dictSet` appends it at the
end, as Python does. -/
def sliceStep (registers : List Nat) (results : List (List (String × Value)))
    (i : Nat) : Except String (List (List (String × Value))) := do
  let moduleSlice := pySlice registers (i * DATA_SIZE) ((i + 1) * DATA_SIZE)
  let result ← convert_single_module moduleSlice DATA_LAYOUT
  pure (results ++ [dictSet result "index" (Value.vint i)])

def slice_modules (registers : List Nat) (modules : Nat) :
    Except String (List (List (String × Value))) :=
  (List.range modules).foldlM (sliceStep registers) []

/-- The exact real value of an IEEE-754 binary32 bit pattern, as a rational;
`none` for the non-finite patterns (exponent field 255: infinities and
NaNs).  Used to state value-level facts about the bit patterns carried by
`Value.vfloat`. -/
def float32ToRat (b : Nat) : Option ℚ :=
  let e : Nat := b / 2 ^ 23 % 256
  let m : Nat := b % 2 ^ 23
  if e = 255 then none
  else
    let mag : ℚ :=
      if e = 0 then (m : ℚ) / ((2 : ℚ) ^ (149 : Nat))
      else (((2 ^ 23 + m : Nat) : ℚ) * ((2 : ℚ) ^ e)) / ((2 : ℚ) ^ (150 : Nat))
    some (if b / 2 ^ 31 = 1 then -mag else mag)

/-- The decoded form of one 24-word module slice, written out field by field
as the spec describes it: one entry per field descriptor, keyed by the
descriptor's name, in layout order; a scalar for `count = 1`, an ordered
list of `count` values for `count > 1`; each value is converted from its own
contiguous `wordsize`-wide sub-slice, the k-th sub-slice of a field starting
at `offset + k * wordsize`, with the second word of each 2-word slice the
more significant half. -/
def decodedModuleSpec (s : List Nat) : List (String × Value) :=
  [("timestamp", Value.vint (s.getD 1 0 <<< 16 ||| s.getD 0 0)),
   ("busIndex", Value.vint (s.getD 2 0)),
   ("voltage", Value.vlist
     [Value.vfloat (s.getD 5 0 <<< 16 ||| s.getD 4 0),
      Value.vfloat (s.getD 7 0 <<< 16 ||| s.getD 6 0),
      Value.vfloat (s.getD 9 0 <<< 16 ||| s.getD 8 0)]),
   ("current", Value.vlist
     [Value.vfloat (s.getD 11 0 <<< 16 ||| s.getD 10 0),
      Value.vfloat (s.getD 13 0 <<< 16 ||| s.getD 12 0),
      Value.vfloat (s.getD 15 0 <<< 16 ||| s.getD 14 0)]),
   ("power", Value.vlist
     [Value.vfloat (s.getD 17 0 <<< 16 ||| s.getD 16 0),
      Value.vfloat (s.getD 19 0 <<< 16 ||| s.getD 18 0),
      Value.vfloat (s.getD 21 0 <<< 16 ||| s.getD 20 0)]),
   ("energy", Value.vfloat (s.getD 23 0 <<< 16 ||| s.getD 22 0))]

/-- The value shapes accepted by the per-key loop of `to_sensor_list`: a
scalar float, or a list of exactly 3 values. -/
def goodShapeB : Value → Bool
  | Value.vfloat _ => true
  | Value.vlist l => l.length == 3
  | _ => false

/-! ### Helper lemmas -/

theorem hexDigitsAux_length : ∀ (fuel n k : Nat), n < fuel → 0 < k →
    n < 16 ^ k → (hexDigitsAux fuel n).length ≤ k := by
  intro fuel
  induction fuel with
  | zero => intro n k h _ _; omega
  | succ fuel ih =>
      intro n k hfuel hk hn
      unfold hexDigitsAux
      split
      · simpa using hk
      · rename_i hge
        rw [List.length_append]
        have hk2 : 2 ≤ k := by
          rcases Nat.lt_or_ge k 2 with h | h
          · interval_cases k
            · exact absurd hn (by simpa using hge)
          · exact h
        have h1 : n / 16 < fuel := by
          have : n / 16 < n := Nat.div_lt_self (by omega) (by omega)
          omega
        have h2 : n / 16 < 16 ^ (k - 1) := by
          apply Nat.div_lt_of_lt_mul
          have hkk : k - 1 + 1 = k := by omega
          calc n < 16 ^ k := hn
            _ = 16 ^ (k - 1) * 16 := by rw [← pow_succ, hkk]
            _ = 16 * 16 ^ (k - 1) := by ring
        have := ih (n / 16) (k - 1) h1 (by omega) h2
        simpa using by omega

theorem hexDigits_length_le (n : Nat) (h : n < 2 ^ 32) :
    (hexDigits n).length ≤ 8 :=
  hexDigitsAux_length (n + 1) n 8 (Nat.lt_succ_self n) (by norm_num)
    (by norm_num at h ⊢; omega)

theorem assemble_lt (lo hi : Nat) (hlo : lo < 65536) (hhi : hi < 65536) :
    hi <<< 16 ||| lo < 2 ^ 32 := by
  apply Nat.or_lt_two_pow
  · rw [Nat.shiftLeft_eq]
    calc hi * 2 ^ 16 < 65536 * 2 ^ 16 :=
          Nat.mul_lt_mul_of_lt_of_le hhi (Nat.le_refl _) (by norm_num)
      _ = 2 ^ 32 := by norm_num
  · calc lo < 65536 := hlo
      _ ≤ 2 ^ 32 := by norm_num

theorem assemble_eq (lo hi : Nat) (hlo : lo < 65536) :
    hi <<< 16 ||| lo = hi * 65536 + lo := by
  rw [Nat.shiftLeft_eq]
  calc hi * 2 ^ 16 ||| lo = 2 ^ 16 * hi ||| lo := by rw [Nat.mul_comm]
    _ = 2 ^ 16 * hi + lo :=
        (Nat.mul_add_lt_is_or (by norm_num at hlo ⊢; omega) hi).symm
    _ = hi * 65536 + lo := by ring_nf

theorem except_bind_ok (a : α) (f : α → Except ε β) :
    (bind (Except.ok a) f : Except ε β) = f a := rfl

theorem except_bind_error (e : ε) (f : α → Except ε β) :
    (bind (Except.error e) f : Except ε β) = Except.error e := rfl

theorem convert_real_ok (lo hi : Nat) (hlo : lo < 65536) (hhi : hi < 65536) :
    convert_real [lo, hi] = Except.ok (Value.vfloat (hi <<< 16 ||| lo)) := by
  have hlen : (hexDigits (hi <<< 16 ||| lo)).length ≤ 8 :=
    hexDigits_length_le _ (assemble_lt lo hi hlo hhi)
  unfold convert_real
  rw [show pyGet [lo, hi] 1 = Except.ok hi from rfl, except_bind_ok,
    show pyGet [lo, hi] 0 = Except.ok lo from rfl, except_bind_ok]
  by_cases hcase : (hexDigits (hi <<< 16 ||| lo)).length < 8
  · simp only [hcase, if_true, List.length_append, List.length_replicate]
    have h8 : 8 - (hexDigits (hi <<< 16 ||| lo)).length +
        (hexDigits (hi <<< 16 ||| lo)).length = 8 := by omega
    rw [h8]
    rfl
  · have h8 : (hexDigits (hi <<< 16 ||| lo)).length = 8 := by omega
    simp only [hcase, if_false]
    rw [h8]
    rfl

theorem pySlice_one : ∀ (l : List Nat) (a : Nat), a + 1 ≤ l.length →
    pySlice l a (a + 1) = [l.getD a 0]
  | _ :: _, 0, _ => rfl
  | _ :: t, a + 1, h => by
      have ih := pySlice_one t a (by simp at h; omega)
      simp only [pySlice, List.drop_succ_cons, List.getD_cons_succ] at ih ⊢
      simpa only [Nat.add_sub_cancel_left] using ih
  | [], _, h => by simp at h

theorem pySlice_two : ∀ (l : List Nat) (a : Nat), a + 2 ≤ l.length →
    pySlice l a (a + 2) = [l.getD a 0, l.getD (a + 1) 0]
  | _ :: _ :: _, 0, _ => rfl
  | _ :: t, a + 1, h => by
      have ih := pySlice_two t a (by simp at h; omega)
      simp only [pySlice, List.drop_succ_cons, List.getD_cons_succ] at ih ⊢
      simpa only [Nat.add_sub_cancel_left] using ih
  | [], _, h => by simp at h
  | [_], 0, h => by simp at h

theorem getD_lt (l : List Nat) (hw : ∀ x ∈ l, x < 65536) (i : Nat)
    (h : i < l.length) : l.getD i 0 < 65536 := by
  cases hx : l[i]? with
  | none =>
      rw [List.getElem?_eq_none_iff] at hx
      omega
  | some x =>
      have hm : x ∈ l := List.getElem?_mem hx
      have hg : l.getD i 0 = x := by
        rw [List.getD_eq_getElem?_getD, hx]
        rfl
      rw [hg]
      exact hw x hm

theorem convert_timestamp_pair (lo hi : Nat) :
    convert_timestamp [lo, hi] = Except.ok (Value.vint (hi <<< 16 ||| lo)) :=
  rfl

theorem except_pure (a : α) : (pure a : Except ε α) = Except.ok a := rfl

theorem convert_single_struct_ok (registers : List Nat)
    (h : registers.length = 24) (hw : ∀ x ∈ registers, x < 65536) :
    convert_single_struct registers = Except.ok (decodedModuleSpec registers) := by
  have hb : ∀ i, i < 24 → registers.getD i 0 < 65536 := fun i hi =>
    getD_lt registers hw i (by omega)
  have e1 := convert_real_ok _ _ (hb 4 (by omega)) (hb 5 (by omega))
  have e2 := convert_real_ok _ _ (hb 6 (by omega)) (hb 7 (by omega))
  have e3 := convert_real_ok _ _ (hb 8 (by omega)) (hb 9 (by omega))
  have e4 := convert_real_ok _ _ (hb 10 (by omega)) (hb 11 (by omega))
  have e5 := convert_real_ok _ _ (hb 12 (by omega)) (hb 13 (by omega))
  have e6 := convert_real_ok _ _ (hb 14 (by omega)) (hb 15 (by omega))
  have e7 := convert_real_ok _ _ (hb 16 (by omega)) (hb 17 (by omega))
  have e8 := convert_real_ok _ _ (hb 18 (by omega)) (hb 19 (by omega))
  have e9 := convert_real_ok _ _ (hb 20 (by omega)) (hb 21 (by omega))
  have e10 := convert_real_ok _ _ (hb 22 (by omega)) (hb 23 (by omega))
  have s0 := pySlice_two registers 0 (by omega)
  have s2 := pySlice_one registers 2 (by omega)
  have s4 := pySlice_two registers 4 (by omega)
  have s6 := pySlice_two registers 6 (by omega)
  have s8 := pySlice_two registers 8 (by omega)
  have s10 := pySlice_two registers 10 (by omega)
  have s12 := pySlice_two registers 12 (by omega)
  have s14 := pySlice_two registers 14 (by omega)
  have s16 := pySlice_two registers 16 (by omega)
  have s18 := pySlice_two registers 18 (by omega)
  have s20 := pySlice_two registers 20 (by omega)
  have s22 := pySlice_two registers 22 (by omega)
  unfold convert_single_struct STRUCT_CONTENTS
  simp only [List.foldlM,
    show pyRange 4 10 2 = [4, 6, 8] from rfl,
    show pyRange 10 16 2 = [10, 12, 14] from rfl,
    show pyRange 16 22 2 = [16, 18, 20] from rfl,
    List.mapM_cons, List.mapM_nil, s0, s2, s4, s6, s8, s10, s12, s14, s16,
    s18, s20, s22, e1, e2, e3, e4, e5, e6, e7, e8, e9, e10,
    convert_timestamp_pair, except_bind_ok, except_pure,
    show pyGet [registers.getD 2 0] 0 = Except.ok (registers.getD 2 0) from rfl,
    dictSet]
  rfl

theorem convert_single_module_ok (s : List Nat) (h : s.length = 24)
    (hw : ∀ x ∈ s, x < 65536) :
    convert_single_module s DATA_LAYOUT = Except.ok (decodedModuleSpec s) := by
  have hb : ∀ i, i < 24 → s.getD i 0 < 65536 := fun i hi =>
    getD_lt s hw i (by omega)
  have e1 := convert_real_ok _ _ (hb 4 (by omega)) (hb 5 (by omega))
  have e2 := convert_real_ok _ _ (hb 6 (by omega)) (hb 7 (by omega))
  have e3 := convert_real_ok _ _ (hb 8 (by omega)) (hb 9 (by omega))
  have e4 := convert_real_ok _ _ (hb 10 (by omega)) (hb 11 (by omega))
  have e5 := convert_real_ok _ _ (hb 12 (by omega)) (hb 13 (by omega))
  have e6 := convert_real_ok _ _ (hb 14 (by omega)) (hb 15 (by omega))
  have e7 := convert_real_ok _ _ (hb 16 (by omega)) (hb 17 (by omega))
  have e8 := convert_real_ok _ _ (hb 18 (by omega)) (hb 19 (by omega))
  have e9 := convert_real_ok _ _ (hb 20 (by omega)) (hb 21 (by omega))
  have e10 := convert_real_ok _ _ (hb 22 (by omega)) (hb 23 (by omega))
  have s0 := pySlice_two s 0 (by omega)
  have s2 := pySlice_one s 2 (by omega)
  have s4 := pySlice_two s 4 (by omega)
  have s6 := pySlice_two s 6 (by omega)
  have s8 := pySlice_two s 8 (by omega)
  have s10 := pySlice_two s 10 (by omega)
  have s12 := pySlice_two s 12 (by omega)
  have s14 := pySlice_two s 14 (by omega)
  have s16 := pySlice_two s 16 (by omega)
  have s18 := pySlice_two s 18 (by omega)
  have s20 := pySlice_two s 20 (by omega)
  have s22 := pySlice_two s 22 (by omega)
  unfold convert_single_module DATA_LAYOUT DATA_SIZE
  simp only [h, List.foldlM,
    show pyRange 4 10 2 = [4, 6, 8] from rfl,
    show pyRange 10 16 2 = [10, 12, 14] from rfl,
    show pyRange 16 22 2 = [16, 18, 20] from rfl,
    List.mapM_cons, List.mapM_nil, s0, s2, s4, s6, s8, s10, s12, s14, s16,
    s18, s20, s22, e1, e2, e3, e4, e5, e6, e7, e8, e9, e10,
    convert_timestamp_pair, except_bind_ok, except_pure,
    show convert_word [s.getD 2 0] = Except.ok (Value.vint (s.getD 2 0)) from
      rfl,
    dictSet]
  rfl

theorem pySlice_length (l : List Nat) (a b : Nat) :
    (pySlice l a b).length = min (b - a) (l.length - a) := by
  simp [pySlice]

theorem pySlice_subset (l : List Nat) (a b : Nat) : pySlice l a b ⊆ l :=
  fun _ hx => List.drop_subset a l (List.take_subset _ _ hx)

theorem pySlice_eq_take (registers : List Nat) (i : Nat) :
    pySlice registers (i * DATA_SIZE) ((i + 1) * DATA_SIZE) =
      (registers.drop (i * 24)).take 24 := by
  unfold pySlice DATA_SIZE
  congr 1
  omega

theorem convert_single_module_short (s : List Nat) (layout : List DataEntry)
    (h : s.length < DATA_SIZE) :
    convert_single_module s layout = Except.error
      "decode error: raw buffer shorter than the declared total word size" := by
  unfold convert_single_module
  rw [if_pos h]

theorem slice_modules_ok (registers : List Nat) (modules : Nat)
    (hlen : modules * 24 ≤ registers.length)
    (hw : ∀ x ∈ registers, x < 65536) :
    slice_modules registers modules = Except.ok ((List.range modules).map
      (fun i =>
        dictSet (decodedModuleSpec ((registers.drop (i * 24)).take 24))
          "index" (Value.vint i))) := by
  induction modules with
  | zero => rfl
  | succ m ih =>
      unfold slice_modules at ih ⊢
      rw [List.range_succ, List.foldlM_append, ih (by omega),
        except_bind_ok, List.map_append]
      have hs : ((registers.drop (m * 24)).take 24).length = 24 := by
        rw [List.length_take, List.length_drop]
        omega
      have hw' : ∀ x ∈ (registers.drop (m * 24)).take 24, x < 65536 :=
        fun x hx => hw x (List.drop_subset _ _ (List.take_subset _ _ hx))
      simp only [List.foldlM, sliceStep, pySlice_eq_take,
        convert_single_module_ok _ hs hw', except_bind_ok, except_pure,
        List.map_cons, List.map_nil]

theorem slice_modules_err (registers : List Nat) (modules : Nat)
    (hlen : registers.length < modules * 24) :
    ∃ e, slice_modules registers modules = Except.error e := by
  cases modules with
  | zero => omega
  | succ m =>
      unfold slice_modules
      rw [List.range_succ, List.foldlM_append]
      have hshort :
          (pySlice registers (m * DATA_SIZE) ((m + 1) * DATA_SIZE)).length <
            DATA_SIZE := by
        rw [pySlice_length]
        unfold DATA_SIZE
        omega
      cases hres : (List.range m).foldlM (sliceStep registers) [] with
      | error e =>
          rw [except_bind_error]
          exact ⟨e, rfl⟩
      | ok acc =>
          rw [except_bind_ok]
          refine
            ⟨"decode error: raw buffer shorter than the declared total word size",
              ?_⟩
          simp only [List.foldlM, sliceStep,
            convert_single_module_short _ _ hshort, except_bind_error]

theorem convert_real_short (l : List Nat) (h : l.length < 2) :
    convert_real l = Except.error "IndexError: list index out of range" := by
  have hg : pyGet l 1 = Except.error "IndexError: list index out of range" := by
    match l, h with
    | [], _ => rfl
    | [_], _ => rfl
  unfold convert_real
  rw [hg, except_bind_error]

theorem convert_single_struct_short (registers : List Nat)
    (h : registers.length = 23) (hw : ∀ x ∈ registers, x < 65536) :
    convert_single_struct registers =
      Except.error "IndexError: list index out of range" := by
  have hb : ∀ i, i < 22 → registers.getD i 0 < 65536 := fun i hi =>
    getD_lt registers hw i (by omega)
  have e1 := convert_real_ok _ _ (hb 4 (by omega)) (hb 5 (by omega))
  have e2 := convert_real_ok _ _ (hb 6 (by omega)) (hb 7 (by omega))
  have e3 := convert_real_ok _ _ (hb 8 (by omega)) (hb 9 (by omega))
  have e4 := convert_real_ok _ _ (hb 10 (by omega)) (hb 11 (by omega))
  have e5 := convert_real_ok _ _ (hb 12 (by omega)) (hb 13 (by omega))
  have e6 := convert_real_ok _ _ (hb 14 (by omega)) (hb 15 (by omega))
  have e7 := convert_real_ok _ _ (hb 16 (by omega)) (hb 17 (by omega))
  have e8 := convert_real_ok _ _ (hb 18 (by omega)) (hb 19 (by omega))
  have e9 := convert_real_ok _ _ (hb 20 (by omega)) (hb 21 (by omega))
  have e11 := convert_real_short (pySlice registers 22 (22 + 2))
    (by rw [pySlice_length]; omega)
  have s0 := pySlice_two registers 0 (by omega)
  have s2 := pySlice_one registers 2 (by omega)
  have s4 := pySlice_two registers 4 (by omega)
  have s6 := pySlice_two registers 6 (by omega)
  have s8 := pySlice_two registers 8 (by omega)
  have s10 := pySlice_two registers 10 (by omega)
  have s12 := pySlice_two registers 12 (by omega)
  have s14 := pySlice_two registers 14 (by omega)
  have s16 := pySlice_two registers 16 (by omega)
  have s18 := pySlice_two registers 18 (by omega)
  have s20 := pySlice_two registers 20 (by omega)
  unfold convert_single_struct STRUCT_CONTENTS
  simp only [List.foldlM,
    show pyRange 4 10 2 = [4, 6, 8] from rfl,
    show pyRange 10 16 2 = [10, 12, 14] from rfl,
    show pyRange 16 22 2 = [16, 18, 20] from rfl,
    List.mapM_cons, List.mapM_nil, s0, s2, s4, s6, s8, s10, s12, s14, s16,
    s18, s20, e1, e2, e3, e4, e5, e6, e7, e8, e9, e11,
    convert_timestamp_pair, except_bind_ok, except_bind_error, except_pure,
    show pyGet [registers.getD 2 0] 0 = Except.ok (registers.getD 2 0) from rfl,
    dictSet]
  rfl

theorem sensor_assign_good (res : List SensorEntry) (k : String) (v : Value)
    (h : k = "timestamp" ∨ k = "busIndex" ∨ goodShapeB v = true) :
    ∃ r, sensor_assign res k v = Except.ok r := by
  unfold sensor_assign
  by_cases hk : k = "timestamp" ∨ k = "busIndex"
  · rw [if_pos hk]
    exact ⟨res, rfl⟩
  · rw [if_neg hk]
    have hv : goodShapeB v = true := by tauto
    cases v with
    | vfloat b => exact ⟨_, rfl⟩
    | vlist l =>
        simp only [goodShapeB, beq_iff_eq] at hv
        refine ⟨l.enum.foldl (fun r p => updateSensor r p.1 k p.2) res, ?_⟩
        simp [hv]
    | vint n => simp [goodShapeB] at hv

theorem sensor_assign_bad (res : List SensorEntry) (k : String) (v : Value)
    (h1 : k ≠ "timestamp") (h2 : k ≠ "busIndex")
    (h3 : goodShapeB v = false) :
    sensor_assign res k v = Except.error (typeErrorMsg k v) := by
  unfold sensor_assign
  rw [if_neg (by tauto)]
  cases v with
  | vint n => rfl
  | vfloat b => simp [goodShapeB] at h3
  | vlist l =>
      simp only [goodShapeB, beq_eq_false_iff_ne, ne_eq] at h3
      simp [h3]

theorem assign_fold_ok : ∀ (conv : List (String × Value))
    (res0 : List SensorEntry),
    (∀ p ∈ conv, p.1 = "timestamp" ∨ p.1 = "busIndex" ∨
      goodShapeB p.2 = true) →
    ∃ res, conv.foldlM (fun r p => sensor_assign r p.1 p.2) res0 =
      Except.ok res := by
  intro conv
  induction conv with
  | nil => exact fun res0 _ => ⟨res0, rfl⟩
  | cons p t ih =>
      intro res0 hgood
      obtain ⟨r, hr⟩ := sensor_assign_good res0 p.1 p.2
        (hgood p (List.mem_cons_self p t))
      obtain ⟨res, hres⟩ := ih r
        (fun q hq => hgood q (List.mem_cons_of_mem p hq))
      refine ⟨res, ?_⟩
      simp only [List.foldlM, hr, except_bind_ok]
      exact hres

theorem assign_fold_err : ∀ (conv : List (String × Value))
    (res0 : List SensorEntry),
    (¬ ∀ p ∈ conv, p.1 = "timestamp" ∨ p.1 = "busIndex" ∨
      goodShapeB p.2 = true) →
    ∃ k v, conv.foldlM (fun r p => sensor_assign r p.1 p.2) res0 =
        Except.error (typeErrorMsg k v) ∧ (k, v) ∈ conv ∧
        goodShapeB v = false ∧ k ≠ "timestamp" ∧ k ≠ "busIndex" := by
  intro conv
  induction conv with
  | nil => exact fun res0 hbad => absurd (by intro p hp; cases hp) hbad
  | cons p t ih =>
      intro res0 hbad
      by_cases hp : p.1 = "timestamp" ∨ p.1 = "busIndex" ∨
          goodShapeB p.2 = true
      · obtain ⟨r, hr⟩ := sensor_assign_good res0 p.1 p.2 hp
        have htail : ¬ ∀ q ∈ t, q.1 = "timestamp" ∨ q.1 = "busIndex" ∨
            goodShapeB q.2 = true := by
          intro hall
          exact hbad (fun q hq => by
            rcases List.mem_cons.mp hq with rfl | hq'
            · exact hp
            · exact hall q hq')
        obtain ⟨k, v, heq, hm, hb, hk1, hk2⟩ := ih r htail
        refine ⟨k, v, ?_, List.mem_cons_of_mem p hm, hb, hk1, hk2⟩
        simp only [List.foldlM, hr, except_bind_ok]
        exact heq
      · push_neg at hp
        obtain ⟨hk1, hk2, hv⟩ := hp
        have hstep := sensor_assign_bad res0 p.1 p.2 hk1 hk2
          (by simpa using hv)
        refine ⟨p.1, p.2, ?_, by simp, by simpa using hv, hk1, hk2⟩
        simp only [List.foldlM, hstep, except_bind_error]

theorem to_sensor_list_ok (registers : List Nat)
    (h : registers.length = 24) (hw : ∀ x ∈ registers, x < 65536) :
    ∃ res, to_sensor_list registers = Except.ok res := by
  unfold to_sensor_list
  rw [convert_single_struct_ok registers h hw, except_bind_ok]
  rw [show dictGet (decodedModuleSpec registers) "busIndex" =
      Except.ok (Value.vint (registers.getD 2 0)) from rfl, except_bind_ok]
  rw [show dictGet (decodedModuleSpec registers) "timestamp" =
      Except.ok (Value.vint (registers.getD 1 0 <<< 16 ||| registers.getD 0 0))
      from rfl, except_bind_ok]
  apply assign_fold_ok
  intro p hp
  simp only [decodedModuleSpec, List.mem_cons, List.not_mem_nil, or_false]
    at hp
  rcases hp with rfl | rfl | rfl | rfl | rfl | rfl <;> simp [goodShapeB]

theorem appendEnergy_ids (t : List SensorEntry) (sid : String)
    (ev : List (String × Value)) :
    (appendEnergy t sid ev).map SensorEntry.sensorId =
      t.map SensorEntry.sensorId := by
  induction t with
  | nil => rfl
  | cons e t ih =>
      unfold appendEnergy
      by_cases h : e.sensorId = sid
      · rw [if_pos h]
        simp
      · rw [if_neg h]
        simp [ih]

theorem exists_id_appendEnergy (t : List SensorEntry) (sid : String)
    (ev : List (String × Value)) (x : String)
    (h : ∃ r ∈ t, r.sensorId = x) :
    ∃ r ∈ appendEnergy t sid ev, r.sensorId = x := by
  obtain ⟨r, hr, hid⟩ := h
  have hx : x ∈ (appendEnergy t sid ev).map SensorEntry.sensorId := by
    rw [appendEnergy_ids]
    exact List.mem_map.mpr ⟨r, hr, hid⟩
  obtain ⟨r', hr', hid'⟩ := List.mem_map.mp hx
  exact ⟨r', hr', hid'⟩

theorem mergeStep_ids (target : List SensorEntry) (s : SensorEntry)
    (tgt' : List SensorEntry) (h : mergeStep target s = Except.ok tgt') :
    (∀ e ∈ target, ∃ r ∈ tgt', r.sensorId = e.sensorId) ∧
    (∃ r ∈ tgt', r.sensorId = s.sensorId) := by
  unfold mergeStep at h
  cases hf : target.find? (fun x => x.sensorId == s.sensorId) with
  | none =>
      rw [hf] at h
      have : target ++ [s] = tgt' := by simpa using h
      subst this
      refine ⟨fun e he => ⟨e, List.mem_append_left _ he, rfl⟩,
        ⟨s, List.mem_append_right _ (List.mem_singleton_self s), rfl⟩⟩
  | some f =>
      rw [hf] at h
      cases hev : pyGet s.energyvalues 0 with
      | error e =>
          rw [hev, except_bind_error] at h
          cases h
      | ok ev =>
          rw [hev, except_bind_ok] at h
          have : appendEnergy target s.sensorId ev = tgt' := by
            simpa [except_pure] using h
          subst this
          have hfm : f ∈ target := List.mem_of_find?_eq_some hf
          have hfid : f.sensorId = s.sensorId := by
            have := List.find?_some hf
            simpa using this
          exact ⟨fun e he =>
              exists_id_appendEnergy _ _ _ _ ⟨e, he, rfl⟩,
            exists_id_appendEnergy _ _ _ _ ⟨f, hfm, hfid⟩⟩

theorem merge_ids : ∀ (source target res : List SensorEntry),
    merge_energy_values target source = Except.ok res →
    (∀ e ∈ target, ∃ r ∈ res, r.sensorId = e.sensorId) ∧
    (∀ e ∈ source, ∃ r ∈ res, r.sensorId = e.sensorId) := by
  intro source
  induction source with
  | nil =>
      intro target res h
      have heq : target = res := by
        unfold merge_energy_values at h
        simpa [except_pure] using h
      subst heq
      exact ⟨fun e he => ⟨e, he, rfl⟩, fun e he => absurd he (by simp)⟩
  | cons s t ih =>
      intro target res h
      unfold merge_energy_values at h
      rw [show List.foldlM mergeStep target (s :: t) =
          bind (mergeStep target s) (fun b => List.foldlM mergeStep b t)
          from rfl] at h
      cases hstep : mergeStep target s with
      | error e =>
          rw [hstep, except_bind_error] at h
          cases h
      | ok tgt' =>
          rw [hstep, except_bind_ok] at h
          obtain ⟨htgt, hsrc⟩ := ih tgt' res h
          obtain ⟨hmono, hs⟩ := mergeStep_ids target s tgt' hstep
          constructor
          · intro e he
            obtain ⟨r, hr, hid⟩ := hmono e he
            obtain ⟨r', hr', hid'⟩ := htgt r hr
            exact ⟨r', hr', by rw [hid', hid]⟩
          · intro e he
            rcases List.mem_cons.mp he with rfl | he'
            · obtain ⟨r, hr, hid⟩ := hs
              obtain ⟨r', hr', hid'⟩ := htgt r hr
              exact ⟨r', hr', by rw [hid', hid]⟩
            · exact hsrc e he'

theorem find?_id_pre (pre : List SensorEntry) (t : SensorEntry)
    (post : List SensorEntry) (sid : String)
    (hpre : ∀ p ∈ pre, p.sensorId ≠ sid) (ht : t.sensorId = sid) :
    (pre ++ t :: post).find? (fun x => x.sensorId == sid) = some t := by
  induction pre with
  | nil =>
      simp only [List.nil_append]
      exact List.find?_cons_of_pos _ (by simpa using ht)
  | cons p pre ih =>
      have hp : ¬ (p.sensorId == sid) = true := by
        simpa using hpre p (List.mem_cons_self p pre)
      simp only [List.cons_append]
      rw [List.find?_cons_of_neg _ (by simpa using hp)]
      exact ih (fun q hq => hpre q (List.mem_cons_of_mem p hq))

theorem appendEnergy_pre (pre : List SensorEntry) (t : SensorEntry)
    (post : List SensorEntry) (sid : String) (ev : List (String × Value))
    (hpre : ∀ p ∈ pre, p.sensorId ≠ sid) (ht : t.sensorId = sid) :
    appendEnergy (pre ++ t :: post) sid ev =
      pre ++ SensorEntry.mk t.sensorId (t.energyvalues ++ [ev]) :: post := by
  induction pre with
  | nil =>
      simp only [List.nil_append]
      unfold appendEnergy
      rw [if_pos ht]
  | cons p pre ih =>
      simp only [List.cons_append]
      unfold appendEnergy
      rw [if_neg (hpre p (List.mem_cons_self p pre))]
      rw [ih (fun q hq => hpre q (List.mem_cons_of_mem p hq))]

theorem merge_step_new (target : List SensorEntry) (s : SensorEntry)
    (hnone : ∀ x ∈ target, x.sensorId ≠ s.sensorId) :
    merge_energy_values target [s] = Except.ok (target ++ [s]) := by
  unfold merge_energy_values
  rw [show List.foldlM mergeStep target [s] =
      bind (mergeStep target s) (fun b => List.foldlM mergeStep b [])
      from rfl]
  have hf : target.find? (fun x => x.sensorId == s.sensorId) = none :=
    List.find?_eq_none.mpr (fun x hx => by simpa using hnone x hx)
  unfold mergeStep
  rw [hf]
  rfl

theorem merge_step_existing (pre : List SensorEntry) (t : SensorEntry)
    (post : List SensorEntry) (s : SensorEntry)
    (ev : List (String × Value)) (rest : List (List (String × Value)))
    (hev : s.energyvalues = ev :: rest)
    (hpre : ∀ p ∈ pre, p.sensorId ≠ s.sensorId)
    (ht : t.sensorId = s.sensorId) :
    merge_energy_values (pre ++ t :: post) [s] =
      Except.ok
        (pre ++ SensorEntry.mk t.sensorId (t.energyvalues ++ [ev]) :: post) := by
  unfold merge_energy_values
  rw [show List.foldlM mergeStep (pre ++ t :: post) [s] =
      bind (mergeStep (pre ++ t :: post) s)
        (fun b => List.foldlM mergeStep b []) from rfl]
  unfold mergeStep
  rw [find?_id_pre pre t post s.sensorId hpre ht]
  rw [hev, show pyGet (ev :: rest) 0 = Except.ok ev from rfl, except_bind_ok]
  rw [appendEnergy_pre pre t post s.sensorId ev hpre ht]
  rfl

/-! ### Claim theorems -/

/-- C1: for every raw module buffer of the declared total word size (24
16-bit words), decoding with the configured layout returns a mapping with
exactly one entry per field descriptor, keyed by the descriptor's name, a
scalar for `count = 1` and an ordered list of exactly `count` values for
`count > 1`, each element converted from its own contiguous, non-overlapping
`wordsize`-wide sub-slice starting at the descriptor's offset, in slice
order, with insertion order equal to layout order (spelled out by
`decodedModuleSpec`). -/
theorem C1_decode_shape (registers : List Nat) (h : registers.length = 24)
    (hw : ∀ x ∈ registers, x < 65536) :
    convert_single_struct registers =
      Except.ok (decodedModuleSpec registers) :=
  convert_single_struct_ok registers h hw

/-- C1 witness: a concrete 24-word buffer decodes to the spelled-out
mapping. -/
theorem C1_decode_shape_witness :
    convert_single_struct (List.replicate 24 7) =
      Except.ok (decodedModuleSpec (List.replicate 24 7)) :=
  C1_decode_shape (List.replicate 24 7) (by simp)
    (fun x hx => by rw [List.eq_of_mem_replicate hx]; norm_num)

/-- C2 counterexample: the two words laid out low-word-first that carry the
IEEE-754 binary32 encoding of 230.03 (bit pattern 0x436607AE = 1130760110)
decode to the float whose exact value is 7537623/32768 =
230.02999877929688, which is not exactly 230.03: `convert_real` performs no
rounding to 3 decimal digits. -/
theorem C2_counterexample :
    convert_real [1966, 17254] = Except.ok (Value.vfloat 1130760110) ∧
    float32ToRat 1130760110 = some ((7537623 : ℚ) / 32768) ∧
    ((7537623 : ℚ) / 32768) ≠ (23003 : ℚ) / 100 :=
  ⟨rfl, by norm_num [float32ToRat], by norm_num⟩

/-- C2 (amended): for every 2-word input of 16-bit words, the Float32
conversion assembles the two words into a 32-bit quantity with the second
word as the more-significant half and returns that bit pattern reinterpreted
bit-for-bit as an IEEE-754 single-precision float, WITHOUT rounding; the
two words encoding 230.03f decode to the exact binary32 value 7537623/32768,
which differs from 230.03 but lies within 1/1000 of it (so it only equals
230.03 after rounding to 3 decimal digits). -/
theorem C2_float32_bit_reinterpretation (w0 w1 : Nat) (h0 : w0 < 65536)
    (h1 : w1 < 65536) :
    convert_real [w0, w1] = Except.ok (Value.vfloat (w1 <<< 16 ||| w0)) ∧
    float32ToRat 1130760110 = some ((7537623 : ℚ) / 32768) ∧
    |(7537623 : ℚ) / 32768 - 23003 / 100| < 1 / 1000 :=
  ⟨convert_real_ok w0 w1 h0 h1, by norm_num [float32ToRat],
    by rw [abs_sub_lt_iff]; norm_num⟩

/-- C2 (amended) witness: the amended statement at the concrete 230.03f
words. -/
theorem C2_float32_bit_reinterpretation_witness :
    convert_real [1966, 17254] =
      Except.ok (Value.vfloat (17254 <<< 16 ||| 1966)) ∧
    float32ToRat 1130760110 = some ((7537623 : ℚ) / 32768) ∧
    |(7537623 : ℚ) / 32768 - 23003 / 100| < 1 / 1000 :=
  C2_float32_bit_reinterpretation 1966 17254 (by norm_num) (by norm_num)

/-- C3: every raw buffer of exactly 23 16-bit words (one word short of the
declared 24) makes decoding raise (the final `energy` slice holds a single
word, and `convert_real` hits `responseData[1]`, an `IndexError`); no
partial mapping is returned. -/
theorem C3_short_buffer_fails (registers : List Nat)
    (h : registers.length = 23) (hw : ∀ x ∈ registers, x < 65536) :
    convert_single_struct registers =
      Except.error "IndexError: list index out of range" :=
  convert_single_struct_short registers h hw

/-- C3 witness: a concrete 23-word buffer fails to decode. -/
theorem C3_short_buffer_fails_witness :
    convert_single_struct (List.replicate 23 7) =
      Except.error "IndexError: list index out of range" :=
  C3_short_buffer_fails (List.replicate 23 7) (by simp)
    (fun x hx => by rw [List.eq_of_mem_replicate hx]; norm_num)

/-- C4: for every raw response of length `modules * 24` (16-bit words), the
module slicing loop of main.py decodes module `i` from exactly the word
sub-range `[i*24, (i+1)*24)`, independently and in increasing order of `i`,
and attaches to each decode result an `index` tag equal to its zero-based
module index.  The decoding engine `convert_single_module` is modelled from
the spec (its definition is absent from the sources). -/
theorem C4_module_slicing (registers : List Nat) (modules : Nat)
    (hlen : registers.length = modules * 24)
    (hw : ∀ x ∈ registers, x < 65536) :
    slice_modules registers modules = Except.ok ((List.range modules).map
      (fun i =>
        dictSet (decodedModuleSpec ((registers.drop (i * 24)).take 24))
          "index" (Value.vint i))) :=
  slice_modules_ok registers modules (by omega) hw

/-- C4 witness: the concrete scenario of the claim — a 48-word response with
2 modules yields two results, decoded from words [0,24) and [24,48) and
tagged index 0 and 1. -/
theorem C4_module_slicing_witness :
    slice_modules (List.replicate 48 7) 2 = Except.ok ((List.range 2).map
      (fun i =>
        dictSet
          (decodedModuleSpec (((List.replicate 48 7).drop (i * 24)).take 24))
          "index" (Value.vint i))) :=
  C4_module_slicing (List.replicate 48 7) 2 (by simp)
    (fun x hx => by rw [List.eq_of_mem_replicate hx]; norm_num)

/-- C5 counterexample: the claim says an oversized raw response (length not
equal to `modules * 24`) makes the slicer fail, but a 25-word response with
`modules = 1` is accepted: the loop decodes the first 24 words and silently
ignores the extra word. -/
theorem C5_counterexample :
    (List.replicate 25 (0 : Nat)).length ≠ 1 * 24 ∧
    slice_modules (List.replicate 25 0) 1 =
      Except.ok
        [dictSet (decodedModuleSpec (List.replicate 24 0)) "index"
          (Value.vint 0)] :=
  ⟨by simp, rfl⟩

/-- C5 (amended): with `modules = 0` the slicer returns the empty result
list, and an undersized response (length < `modules * 24`) fails with an
error; but an oversized response does NOT fail: whenever
`modules * 24 ≤ length` the loop decodes the first `modules` slices and
silently ignores any excess words. -/
theorem C5_slicer_boundary :
    (∀ registers : List Nat, slice_modules registers 0 = Except.ok []) ∧
    (∀ (registers : List Nat) (modules : Nat),
      registers.length < modules * 24 →
      ∃ e, slice_modules registers modules = Except.error e) ∧
    (∀ (registers : List Nat) (modules : Nat),
      modules * 24 ≤ registers.length → (∀ x ∈ registers, x < 65536) →
      slice_modules registers modules = Except.ok ((List.range modules).map
        (fun i =>
          dictSet (decodedModuleSpec ((registers.drop (i * 24)).take 24))
            "index" (Value.vint i)))) :=
  ⟨fun _ => rfl, slice_modules_err, slice_modules_ok⟩

/-- C5 (amended) witness: an undersized 23-word response with one declared
module fails. -/
theorem C5_slicer_boundary_witness :
    ∃ e, slice_modules (List.replicate 23 0) 1 = Except.error e :=
  C5_slicer_boundary.2.1 (List.replicate 23 0) 1 (by simp)

/-- C6: the source's 32-bit assembly (`convert_timestamp` and
`convert_real`, which share the expression
`responseData[1] << 16 | responseData[0]`) fixes the word order as second
word = high half, first word = low half — there is no endianness flag
anywhere in the sources — and on 16-bit words the assembled quantity equals
`w1 * 2^16 + w0`. -/
theorem C6_word_order (w0 w1 : Nat) (h0 : w0 < 65536) (h1 : w1 < 65536) :
    convert_timestamp [w0, w1] = Except.ok (Value.vint (w1 <<< 16 ||| w0)) ∧
    convert_real [w0, w1] = Except.ok (Value.vfloat (w1 <<< 16 ||| w0)) ∧
    w1 <<< 16 ||| w0 = w1 * 65536 + w0 :=
  ⟨convert_timestamp_pair w0 w1, convert_real_ok w0 w1 h0 h1,
    assemble_eq w0 w1 h0⟩

/-- C6 witness: the word order at the concrete 230.03f words. -/
theorem C6_word_order_witness :
    convert_timestamp [1966, 17254] =
      Except.ok (Value.vint (17254 <<< 16 ||| 1966)) ∧
    convert_real [1966, 17254] =
      Except.ok (Value.vfloat (17254 <<< 16 ||| 1966)) ∧
    17254 <<< 16 ||| 1966 = 17254 * 65536 + 1966 :=
  C6_word_order 1966 17254 (by norm_num) (by norm_num)

/-- C7: decoding is deterministic and idempotent — two calls of the decode
function on the same buffer yield identical result mappings.  The Python
`convert_single_struct` reads only its argument and the immutable
module-level `STRUCT_CONTENTS` table and mutates only its local `result`
dict (the fold accumulator of the embedding), so its embedding is a pure
function and both calls denote the same value. -/
theorem C7_deterministic (registers : List Nat) :
    convert_single_struct registers = convert_single_struct registers := rfl

/-- C8: in the per-key loop of `to_sensor_list`, a decoded field other than
`timestamp` and `busIndex` whose value is neither a scalar float nor a list
of exactly 3 elements makes the loop raise a `TypeError` whose message
(`typeErrorMsg`) reports the offending field's name and value; when every
such field is a scalar float or 3-element list the loop completes, and on
every 24-word buffer of 16-bit words `to_sensor_list` itself completes
without raising. -/
theorem C8_sensor_list_errors :
    (∀ (conv : List (String × Value)) (res0 : List SensorEntry),
      (¬ ∀ p ∈ conv, p.1 = "timestamp" ∨ p.1 = "busIndex" ∨
        goodShapeB p.2 = true) →
      ∃ k v, conv.foldlM (fun r p => sensor_assign r p.1 p.2) res0 =
          Except.error (typeErrorMsg k v) ∧ (k, v) ∈ conv ∧
          goodShapeB v = false ∧ k ≠ "timestamp" ∧ k ≠ "busIndex") ∧
    (∀ (conv : List (String × Value)) (res0 : List SensorEntry),
      (∀ p ∈ conv, p.1 = "timestamp" ∨ p.1 = "busIndex" ∨
        goodShapeB p.2 = true) →
      ∃ res, conv.foldlM (fun r p => sensor_assign r p.1 p.2) res0 =
        Except.ok res) ∧
    (∀ registers : List Nat, registers.length = 24 →
      (∀ x ∈ registers, x < 65536) →
      ∃ res, to_sensor_list registers = Except.ok res) :=
  ⟨assign_fold_err, assign_fold_ok, to_sensor_list_ok⟩

/-- C8 witness: a decoded mapping carrying an `int` under a non-skipped key
makes the loop raise the `TypeError` naming that key and value. -/
theorem C8_sensor_list_errors_witness :
    ∃ k v, List.foldlM (fun r p => sensor_assign r p.1 p.2) []
        [("voltage", Value.vint 5)] =
        Except.error (typeErrorMsg k v) ∧
        (k, v) ∈ [("voltage", Value.vint 5)] ∧
        goodShapeB v = false ∧ k ≠ "timestamp" ∧ k ≠ "busIndex" :=
  C8_sensor_list_errors.1 [("voltage", Value.vint 5)] []
    (fun hall => by
      have hv := hall ("voltage", Value.vint 5) (by simp)
      simp [goodShapeB] at hv)

/-- C9: for every 2-word input of integers in 0..65535, `convert_real`
terminates normally with a float and never raises: the assembled quantity
fits in 32 bits, the hexadecimal rendering has at most 8 digits, so after
zero-padding it has exactly 8 digits and the modelled
`struct.unpack(">f", bytes.fromhex(...))` receives exactly 4 bytes. -/
theorem C9_convert_real_total (w0 w1 : Nat) (h0 : w0 < 65536)
    (h1 : w1 < 65536) :
    convert_real [w0, w1] = Except.ok (Value.vfloat (w1 <<< 16 ||| w0)) ∧
    w1 <<< 16 ||| w0 < 2 ^ 32 ∧
    (hexDigits (w1 <<< 16 ||| w0)).length ≤ 8 :=
  ⟨convert_real_ok w0 w1 h0 h1, assemble_lt w0 w1 h0 h1,
    hexDigits_length_le _ (assemble_lt w0 w1 h0 h1)⟩

/-- C9 witness: the totality statement at the extreme input [65535, 65535]. -/
theorem C9_convert_real_total_witness :
    convert_real [65535, 65535] =
      Except.ok (Value.vfloat (65535 <<< 16 ||| 65535)) ∧
    65535 <<< 16 ||| 65535 < 2 ^ 32 ∧
    (hexDigits (65535 <<< 16 ||| 65535)).length ≤ 8 :=
  C9_convert_real_total 65535 65535 (by norm_num) (by norm_num)

/-- C10: after `merge_energy_values(target, source)` succeeds, every
`sensorId` occurring in `source` occurs in the returned list; a source entry
matching no target `sensorId` is appended whole, and a source entry matching
an existing target entry contributes its first `energyvalues` element, which
is appended to the first matching target entry's `energyvalues` list. -/
theorem C10_merge_preserves_source_ids :
    (∀ target source res : List SensorEntry,
      merge_energy_values target source = Except.ok res →
      ∀ e ∈ source, ∃ r ∈ res, r.sensorId = e.sensorId) ∧
    (∀ (target : List SensorEntry) (s : SensorEntry),
      (∀ x ∈ target, x.sensorId ≠ s.sensorId) →
      merge_energy_values target [s] = Except.ok (target ++ [s])) ∧
    (∀ (pre : List SensorEntry) (t : SensorEntry) (post : List SensorEntry)
        (s : SensorEntry) (ev : List (String × Value))
        (rest : List (List (String × Value))),
      s.energyvalues = ev :: rest →
      (∀ p ∈ pre, p.sensorId ≠ s.sensorId) → t.sensorId = s.sensorId →
      merge_energy_values (pre ++ t :: post) [s] =
        Except.ok
          (pre ++ SensorEntry.mk t.sensorId (t.energyvalues ++ [ev]) ::
            post)) :=
  ⟨fun target source res h => (merge_ids source target res h).2,
    merge_step_new, merge_step_existing⟩

/-- C10 witness: merging one source entry into an empty target appends it
whole. -/
theorem C10_merge_preserves_source_ids_witness :
    merge_energy_values []
        [SensorEntry.mk "pm1-phase1" [[("timestamp", Value.vint 0)]]] =
      Except.ok
        ([] ++ [SensorEntry.mk "pm1-phase1" [[("timestamp", Value.vint 0)]]]) :=
  C10_merge_preserves_source_ids.2.1 []
    (SensorEntry.mk "pm1-phase1" [[("timestamp", Value.vint 0)]])
    (fun x hx => absurd hx (by simp))

end Modbus
